import Mathlib

/-!
# Verification of the TIFF IFD entry decoder (`src/tiff/ifd.rs`)

Shallow embedding of the tag catalog, type catalog, value model, entry
record and the entry-resolution algorithm `Entry::val`, together with
theorems settling the specification claims.

Machine bytes are modelled as `Nat` (each byte a value `0 ≤ b < 256` in
the intended use); u16/u32 assembly is explicit arithmetic.  Fallible
operations return `Option`/`Except`.  The byte-stream collaborator
(`super::stream`: `ByteOrder`, `SmartReader`) and the external decoder
(`TIFFDecoder` with `byte_order`/`goto_offset`/`read_short`/`read_long`)
are code of this repository that is not under `src/`; they are modelled
from the spec where indicated.
-/

namespace Tiff

/-- Modelled from the spec: the file-wide byte order flag of the stream
module (`super::stream::ByteOrder`), fixed after container-header parsing. -/
inductive ByteOrder where
  | LittleEndian
  | BigEndian
deriving DecidableEq, Repr

/-- Assemble an unsigned 16-bit value from two stream-order bytes
according to the byte order (big-endian: first byte is most significant). -/
def u16val : ByteOrder → Nat → Nat → Nat
  | ByteOrder.BigEndian,    b0, b1 => b0 * 256 + b1
  | ByteOrder.LittleEndian, b0, b1 => b1 * 256 + b0

/-- Assemble an unsigned 32-bit value from four stream-order bytes
according to the byte order. -/
def u32val : ByteOrder → Nat → Nat → Nat → Nat → Nat
  | ByteOrder.BigEndian,    b0, b1, b2, b3 => ((b0 * 256 + b1) * 256 + b2) * 256 + b3
  | ByteOrder.LittleEndian, b0, b1, b2, b3 => ((b3 * 256 + b2) * 256 + b1) * 256 + b0

/-- Modelled from the spec: `super::stream::SmartReader` wrapping an
in-memory buffer (`io::Cursor<Vec<u8>>`) with byte-order-aware reads.
`data` is the wrapped buffer, `pos` the cursor. -/
structure SmartReader where
  data : List Nat
  pos : Nat
  byte_order : ByteOrder

/-- Modelled from the spec: `SmartReader::read_u16` — read two sequential
bytes at the cursor and assemble them in the reader's byte order; fails
(I/O error) when fewer than two bytes remain. -/
def SmartReader.read_u16 (r : SmartReader) : Option (Nat × SmartReader) :=
  match r.data.get? r.pos, r.data.get? (r.pos + 1) with
  | some b0, some b1 =>
      some (u16val r.byte_order b0 b1, { r with pos := r.pos + 2 })
  | _, _ => none

/-- Modelled from the spec: `SmartReader::read_u32` — read four sequential
bytes at the cursor and assemble them in the reader's byte order. -/
def SmartReader.read_u32 (r : SmartReader) : Option (Nat × SmartReader) :=
  match r.data.get? r.pos, r.data.get? (r.pos + 1),
        r.data.get? (r.pos + 2), r.data.get? (r.pos + 3) with
  | some b0, some b1, some b2, some b3 =>
      some (u32val r.byte_order b0 b1 b2 b3, { r with pos := r.pos + 4 })
  | _, _, _, _ => none

/-- Modelled from the spec: the external decoder collaborator
(`super::TIFFDecoder`) — owns the file stream (`data`), its cursor
(`pos`) and the file-wide byte order. -/
structure TIFFDecoder where
  data : List Nat
  pos : Nat
  byte_order : ByteOrder

/-- Modelled from the spec: `TIFFDecoder::goto_offset` — absolute-offset
seek of the stream cursor (a seek to an absolute position does not fail). -/
def TIFFDecoder.goto_offset (d : TIFFDecoder) (o : Nat) : Option TIFFDecoder :=
  some { d with pos := o }

/-- Modelled from the spec: `TIFFDecoder::read_short` — sequential
unsigned 16-bit read at the cursor in the file's byte order. -/
def TIFFDecoder.read_short (d : TIFFDecoder) : Option (Nat × TIFFDecoder) :=
  match d.data.get? d.pos, d.data.get? (d.pos + 1) with
  | some b0, some b1 =>
      some (u16val d.byte_order b0 b1, { d with pos := d.pos + 2 })
  | _, _ => none

/-- Modelled from the spec: `TIFFDecoder::read_long` — sequential
unsigned 32-bit read at the cursor in the file's byte order. -/
def TIFFDecoder.read_long (d : TIFFDecoder) : Option (Nat × TIFFDecoder) :=
  match d.data.get? d.pos, d.data.get? (d.pos + 1),
        d.data.get? (d.pos + 2), d.data.get? (d.pos + 3) with
  | some b0, some b1, some b2, some b3 =>
      some (u32val d.byte_order b0 b1 b2 b3, { d with pos := d.pos + 4 })
  | _, _, _, _ => none

/-- The TIFF on-disk primitive type catalog (`enum Type` in `ifd.rs`,
codes 1–12).  Named `Type_` because `Type` is reserved in Lean. -/
inductive Type_ where
  | BYTE
  | ASCII
  | SHORT
  | LONG
  | RATIONAL
  | SBYTE
  | UNDEFINED
  | SSHORT
  | SLONG
  | SRATIONAL
  | FLOAT
  | DOUBLE
deriving DecidableEq, Repr

/-- Decoded tag value (`enum Value` in `ifd.rs`): a single unsigned
32-bit integer or an ordered sequence of values. -/
inductive Value where
  | Unsigned (v : Nat)
  | List (l : List Value)

/-- The `Value_Type` marker enum from `ifd.rs` (unused by resolution). -/
inductive Value_Type where
  | Value
  | Offset

/-- Error taxonomy of `::image::ImageError` as used by this module:
format error (type mismatch, carrying the offending value), unsupported
data type (carrying the message string), propagated I/O failure. -/
inductive ImageError where
  | FormatError (found : Value)
  | UnsupportedError (s : String)
  | IoError

/-- Accessor `Value::as_u32`: succeeds exactly on the `Unsigned` shape; any other
shape is a format error carrying the found value. -/
def Value.as_u32 : Value → Except ImageError Nat
  | Value.Unsigned val => Except.ok val
  | val => Except.error (ImageError.FormatError val)

/-- The result type of `as_u32_vec` (`Vec<u32>`), named outside the
`Value` namespace so that `List` does not clash with the constructor. -/
abbrev U32Vec : Type := List Nat

/-- Accessor `Value::as_u32_vec`: a list reduces element-wise through `as_u32`
(the `try!` loop); a lone `Unsigned` becomes a one-element vector. -/
def Value.as_u32_vec : Value → Except ImageError U32Vec
  | Value.List vec => vec.mapM Value.as_u32
  | Value.Unsigned val => Except.ok [val]

/-- The 4-byte value/offset slot of a directory record (`[u8; 4]`). -/
structure Bytes4 where
  b0 : Nat
  b1 : Nat
  b2 : Nat
  b3 : Nat

/-- The slot as the byte sequence wrapped by `Entry::r`
(`self.offset.to_vec()`). -/
def Bytes4.toList (b : Bytes4) : List Nat := [b.b0, b.b1, b.b2, b.b3]

/-- One IFD record (`struct Entry`): declared type, element count, and
the 4-byte value/offset slot (field name `offset` as in the source). -/
structure Entry where
  type_ : Type_
  count : Nat
  offset : Bytes4

/-- Constructor `Entry::new`. -/
def Entry.new (type_ : Type_) (count : Nat) (offset : Bytes4) : Entry :=
  { type_ := type_, count := count, offset := offset }

/-- Method `Entry::r`: a `SmartReader` over the in-memory 4-byte slot, cursor at
the start, using the given byte order. -/
def Entry.r (e : Entry) (byte_order : ByteOrder) : SmartReader :=
  { data := e.offset.toList, pos := 0, byte_order := byte_order }

/-- The `for _ in 0 .. n { v.push(Unsigned(try!(decoder.read_short()) as u32)) }`
loop of the `(SHORT, n)` arm of `Entry::val`: read `n` sequential
unsigned 16-bit values through the decoder, each promoted to 32-bit. -/
def read_short_loop : Nat → TIFFDecoder → Option (List Value × TIFFDecoder)
  | 0, d => some ([], d)
  | Nat.succ n, d =>
    match d.read_short with
    | some (v, d1) =>
      match read_short_loop n d1 with
      | some (vs, d2) => some (Value.Unsigned v :: vs, d2)
      | none => none
    | none => none

/-- The analogous loop of the `(LONG, n)` arm of `Entry::val`: read `n`
sequential unsigned 32-bit values through the decoder. -/
def read_long_loop : Nat → TIFFDecoder → Option (List Value × TIFFDecoder)
  | 0, d => some ([], d)
  | Nat.succ n, d =>
    match d.read_long with
    | some (v, d1) =>
      match read_long_loop n d1 with
      | some (vs, d2) => some (Value.Unsigned v :: vs, d2)
      | none => none
    | none => none

/-- Method `Entry::val`: the resolution algorithm.  Dispatch on `(type_, count)`
exactly as the source match; the decoder is threaded through explicitly
(it is `&mut` in the source), so a successful resolution returns the
value together with the decoder's final state. -/
def Entry.val (e : Entry) (decoder : TIFFDecoder) :
    Except ImageError (Value × TIFFDecoder) :=
  let bo := decoder.byte_order
  match e.type_, e.count with
  | Type_.BYTE, 1 => Except.ok (Value.Unsigned e.offset.b0, decoder)
  | Type_.SHORT, 1 =>
    match (e.r bo).read_u16 with
    | some (v, _) => Except.ok (Value.Unsigned v, decoder)
    | none => Except.error ImageError.IoError
  | Type_.SHORT, 2 =>
    match (e.r bo).read_u16 with
    | some (v1, r1) =>
      match r1.read_u16 with
      | some (v2, _) =>
          Except.ok (Value.List [Value.Unsigned v1, Value.Unsigned v2], decoder)
      | none => Except.error ImageError.IoError
    | none => Except.error ImageError.IoError
  | Type_.SHORT, n =>
    match (e.r bo).read_u32 with
    | some (o, _) =>
      match decoder.goto_offset o with
      | some d1 =>
        match read_short_loop n d1 with
        | some (v, d2) => Except.ok (Value.List v, d2)
        | none => Except.error ImageError.IoError
      | none => Except.error ImageError.IoError
    | none => Except.error ImageError.IoError
  | Type_.LONG, 1 =>
    match (e.r bo).read_u32 with
    | some (v, _) => Except.ok (Value.Unsigned v, decoder)
    | none => Except.error ImageError.IoError
  | Type_.LONG, n =>
    match (e.r bo).read_u32 with
    | some (o, _) =>
      match decoder.goto_offset o with
      | some d1 =>
        match read_long_loop n d1 with
        | some (v, d2) => Except.ok (Value.List v, d2)
        | none => Except.error ImageError.IoError
      | none => Except.error ImageError.IoError
    | none => Except.error ImageError.IoError
  | _, _ => Except.error (ImageError.UnsupportedError "Unsupported data type.")

/-- The TIFF tag catalog (`enum Tag`, generated by the `tags!` macro from
TIFF6 Appendix A): one named variant per recognized code plus a fallback
variant carrying the raw unrecognized 16-bit code. -/
inductive Tag where
  | NewSubfileType
  | SubfileType
  | ImageWidth
  | ImageLength
  | BitsPerSample
  | Compression
  | PhotometricInterpretation
  | Threshholding
  | CellWidth
  | CellLength
  | FillOrder
  | DocumentName
  | ImageDescription
  | Make
  | Model
  | StripOffsets
  | Orientation
  | SamplesPerPixel
  | RowsPerStrip
  | StripByteCounts
  | MinSampleValue
  | MaxSampleValue
  | XResolution
  | YResolution
  | PlanarConfiguration
  | PageName
  | XPosition
  | YPosition
  | FreeOffsets
  | FreeByteCounts
  | GrayResponseUnit
  | GrayResponseCurve
  | T4Options
  | T6Options
  | ResolutionUnit
  | PageNumber
  | TransferFunction
  | Software
  | DateTime
  | Artist
  | HostComputer
  | Predictor
  | WhitePoint
  | PrimaryChromaticities
  | ColorMap
  | HalftoneHints
  | TileWidth
  | TileLength
  | TileOffsets
  | TileByteCounts
  | InkSet
  | InkNames
  | NumberOfInks
  | DotRange
  | TargetPrinter
  | ExtraSamples
  | SampleFormat
  | SMinSampleValue
  | SMaxSampleValue
  | TransferRange
  | JPEGProc
  | JPEGInterchangeFormat
  | JPEGInterchangeFormatLngth
  | JPEGRestartInterval
  | JPEGLosslessPredictors
  | JPEGPointTransforms
  | JPEGQTables
  | JPEGDCTables
  | JPEGACTables
  | YCbCrCoefficients
  | YCbCrSubSampling
  | YCbCrPositioning
  | ReferenceBlackWhite
  | Copyright
  | Unknown (n : Nat)

/-- The code/variant pairs fed to the `tags!` macro, in source order.  The
macro expands `from_u16` into a first-match chain of `if n == code`
comparisons over exactly this list. -/
def tags_list : List (Nat × Tag) := [
  (254, Tag.NewSubfileType),
  (255, Tag.SubfileType),
  (256, Tag.ImageWidth),
  (257, Tag.ImageLength),
  (258, Tag.BitsPerSample),
  (259, Tag.Compression),
  (262, Tag.PhotometricInterpretation),
  (263, Tag.Threshholding),
  (264, Tag.CellWidth),
  (265, Tag.CellLength),
  (266, Tag.FillOrder),
  (269, Tag.DocumentName),
  (270, Tag.ImageDescription),
  (271, Tag.Make),
  (272, Tag.Model),
  (273, Tag.StripOffsets),
  (274, Tag.Orientation),
  (277, Tag.SamplesPerPixel),
  (278, Tag.RowsPerStrip),
  (279, Tag.StripByteCounts),
  (280, Tag.MinSampleValue),
  (281, Tag.MaxSampleValue),
  (282, Tag.XResolution),
  (283, Tag.YResolution),
  (284, Tag.PlanarConfiguration),
  (285, Tag.PageName),
  (286, Tag.XPosition),
  (287, Tag.YPosition),
  (288, Tag.FreeOffsets),
  (289, Tag.FreeByteCounts),
  (290, Tag.GrayResponseUnit),
  (291, Tag.GrayResponseCurve),
  (292, Tag.T4Options),
  (293, Tag.T6Options),
  (296, Tag.ResolutionUnit),
  (297, Tag.PageNumber),
  (301, Tag.TransferFunction),
  (305, Tag.Software),
  (306, Tag.DateTime),
  (315, Tag.Artist),
  (316, Tag.HostComputer),
  (317, Tag.Predictor),
  (318, Tag.WhitePoint),
  (319, Tag.PrimaryChromaticities),
  (320, Tag.ColorMap),
  (321, Tag.HalftoneHints),
  (322, Tag.TileWidth),
  (323, Tag.TileLength),
  (324, Tag.TileOffsets),
  (325, Tag.TileByteCounts),
  (332, Tag.InkSet),
  (333, Tag.InkNames),
  (334, Tag.NumberOfInks),
  (336, Tag.DotRange),
  (337, Tag.TargetPrinter),
  (338, Tag.ExtraSamples),
  (339, Tag.SampleFormat),
  (340, Tag.SMinSampleValue),
  (341, Tag.SMaxSampleValue),
  (342, Tag.TransferRange),
  (512, Tag.JPEGProc),
  (513, Tag.JPEGInterchangeFormat),
  (514, Tag.JPEGInterchangeFormatLngth),
  (515, Tag.JPEGRestartInterval),
  (517, Tag.JPEGLosslessPredictors),
  (518, Tag.JPEGPointTransforms),
  (519, Tag.JPEGQTables),
  (520, Tag.JPEGDCTables),
  (521, Tag.JPEGACTables),
  (529, Tag.YCbCrCoefficients),
  (530, Tag.YCbCrSubSampling),
  (531, Tag.YCbCrPositioning),
  (532, Tag.ReferenceBlackWhite),
  (33432, Tag.Copyright)]

/-- Lookup `Tag::from_u16`: the first catalog entry whose code equals `n`
(the macro-generated `if`-chain), else `Unknown(n)`. -/
def Tag.from_u16 (n : Nat) : Tag :=
  match tags_list.find? (fun p => p.1 == n) with
  | some p => p.2
  | none => Tag.Unknown n

/-- Follows the spec's words (the behaviour `(SHORT, n)` resolution must
refine): the sequence of `n` unsigned 16-bit values read sequentially
from absolute offset `o` of the file in byte order `bo`, each promoted
to 32-bit. -/
def specShortSeq (bo : ByteOrder) (data : List Nat) (o : Nat) : Nat → List Value
  | 0 => []
  | Nat.succ n =>
      Value.Unsigned (u16val bo (data.getD o 0) (data.getD (o + 1) 0)) ::
        specShortSeq bo data (o + 2) n

/-- Follows the spec's words (the behaviour `(LONG, n)` resolution must
refine): the sequence of `n` unsigned 32-bit values read sequentially
from absolute offset `o` of the file in byte order `bo`. -/
def specLongSeq (bo : ByteOrder) (data : List Nat) (o : Nat) : Nat → List Value
  | 0 => []
  | Nat.succ n =>
      Value.Unsigned (u32val bo (data.getD o 0) (data.getD (o + 1) 0)
          (data.getD (o + 2) 0) (data.getD (o + 3) 0)) ::
        specLongSeq bo data (o + 4) n

/-- The 4-byte slot decoded as an unsigned 32-bit integer in the given
byte order: the value produced by `self.r(bo).read_u32()`, i.e. the
offset interpretation of the slot. -/
def Entry.slotU32 (e : Entry) (bo : ByteOrder) : Nat :=
  u32val bo e.offset.b0 e.offset.b1 e.offset.b2 e.offset.b3

/-! ## Helper lemmas -/

/-- An in-bounds `get?` is `some` of the `getD` default read. -/
lemma get?_eq_getD (l : List Nat) (i : Nat) (h : i < l.length) :
    l.get? i = some (l.getD i 0) := by
  rw [List.getD_eq_getElem?_getD, List.get?_eq_getElem?, List.getElem?_eq_getElem h]
  rfl

/-- The spec-side SHORT sequence has exactly `n` elements. -/
lemma specShortSeq_length (bo : ByteOrder) (data : List Nat) (o n : Nat) :
    (specShortSeq bo data o n).length = n := by
  induction n generalizing o with
  | zero => rfl
  | succ n ih => simp [specShortSeq, ih]

/-- The spec-side LONG sequence has exactly `n` elements. -/
lemma specLongSeq_length (bo : ByteOrder) (data : List Nat) (o n : Nat) :
    (specLongSeq bo data o n).length = n := by
  induction n generalizing o with
  | zero => rfl
  | succ n ih => simp [specLongSeq, ih]

/-- Every element of the spec-side SHORT sequence is a scalar. -/
lemma specShortSeq_all_unsigned (bo : ByteOrder) (data : List Nat) (o n : Nat) :
    ∀ x ∈ specShortSeq bo data o n, ∃ u, x = Value.Unsigned u := by
  induction n generalizing o with
  | zero => intro x hx; cases hx
  | succ n ih =>
    intro x hx
    rcases List.mem_cons.mp hx with rfl | hx
    · exact ⟨_, rfl⟩
    · exact ih (o + 2) x hx

/-- Every element of the spec-side LONG sequence is a scalar. -/
lemma specLongSeq_all_unsigned (bo : ByteOrder) (data : List Nat) (o n : Nat) :
    ∀ x ∈ specLongSeq bo data o n, ∃ u, x = Value.Unsigned u := by
  induction n generalizing o with
  | zero => intro x hx; cases hx
  | succ n ih =>
    intro x hx
    rcases List.mem_cons.mp hx with rfl | hx
    · exact ⟨_, rfl⟩
    · exact ih (o + 4) x hx

/-- With enough data available, the `(SHORT, n)` read loop succeeds,
produces exactly the spec-side sequence of `n` sequential 16-bit values
at the cursor, and advances the cursor by `2 * n`. -/
lemma read_short_loop_eq (n : Nat) (d : TIFFDecoder)
    (h : d.pos + 2 * n ≤ d.data.length) :
    read_short_loop n d =
      some (specShortSeq d.byte_order d.data d.pos n,
        { d with pos := d.pos + 2 * n }) := by
  induction n generalizing d with
  | zero => rfl
  | succ n ih =>
    have h0 : d.pos < d.data.length := by omega
    have h1 : d.pos + 1 < d.data.length := by omega
    have hrs : d.read_short =
        some (u16val d.byte_order (d.data.getD d.pos 0) (d.data.getD (d.pos + 1) 0),
          { d with pos := d.pos + 2 }) := by
      unfold TIFFDecoder.read_short
      rw [get?_eq_getD _ _ h0, get?_eq_getD _ _ h1]
    have ih' := ih { d with pos := d.pos + 2 }
      (by show d.pos + 2 + 2 * n ≤ d.data.length; omega)
    simp only [read_short_loop, hrs, ih']
    have harith : d.pos + 2 + 2 * n = d.pos + 2 * (n + 1) := by omega
    simp [specShortSeq, harith]

/-- With enough data available, the `(LONG, n)` read loop succeeds,
produces exactly the spec-side sequence of `n` sequential 32-bit values
at the cursor, and advances the cursor by `4 * n`. -/
lemma read_long_loop_eq (n : Nat) (d : TIFFDecoder)
    (h : d.pos + 4 * n ≤ d.data.length) :
    read_long_loop n d =
      some (specLongSeq d.byte_order d.data d.pos n,
        { d with pos := d.pos + 4 * n }) := by
  induction n generalizing d with
  | zero => rfl
  | succ n ih =>
    have h0 : d.pos < d.data.length := by omega
    have h1 : d.pos + 1 < d.data.length := by omega
    have h2 : d.pos + 2 < d.data.length := by omega
    have h3 : d.pos + 3 < d.data.length := by omega
    have hrs : d.read_long =
        some (u32val d.byte_order (d.data.getD d.pos 0) (d.data.getD (d.pos + 1) 0)
            (d.data.getD (d.pos + 2) 0) (d.data.getD (d.pos + 3) 0),
          { d with pos := d.pos + 4 }) := by
      unfold TIFFDecoder.read_long
      rw [get?_eq_getD _ _ h0, get?_eq_getD _ _ h1, get?_eq_getD _ _ h2,
        get?_eq_getD _ _ h3]
    have ih' := ih { d with pos := d.pos + 4 }
      (by show d.pos + 4 + 4 * n ≤ d.data.length; omega)
    simp only [read_long_loop, hrs, ih']
    have harith : d.pos + 4 + 4 * n = d.pos + 4 * (n + 1) := by omega
    simp [specLongSeq, harith]

/-- A successful 16-bit decoder read only advances the cursor. -/
lemma read_short_state (d : TIFFDecoder) (v : Nat) (d1 : TIFFDecoder)
    (h : d.read_short = some (v, d1)) :
    d1.data = d.data ∧ d1.byte_order = d.byte_order ∧ d1.pos = d.pos + 2 := by
  unfold TIFFDecoder.read_short at h
  split at h
  · simp only [Option.some.injEq, Prod.mk.injEq] at h
    rcases h with ⟨-, hd⟩
    subst hd
    exact ⟨rfl, rfl, rfl⟩
  · simp at h

/-- A successful 32-bit decoder read only advances the cursor. -/
lemma read_long_state (d : TIFFDecoder) (v : Nat) (d1 : TIFFDecoder)
    (h : d.read_long = some (v, d1)) :
    d1.data = d.data ∧ d1.byte_order = d.byte_order ∧ d1.pos = d.pos + 4 := by
  unfold TIFFDecoder.read_long at h
  split at h
  · simp only [Option.some.injEq, Prod.mk.injEq] at h
    rcases h with ⟨-, hd⟩
    subst hd
    exact ⟨rfl, rfl, rfl⟩
  · simp at h

/-- A successful `(SHORT, n)` read loop yields `n` scalars and does not
change the stream content or byte order. -/
lemma read_short_loop_inv (n : Nat) :
    ∀ (d : TIFFDecoder) (vs : List Value) (d2 : TIFFDecoder),
      read_short_loop n d = some (vs, d2) →
      (vs.length = n ∧ ∀ x ∈ vs, ∃ u, x = Value.Unsigned u) ∧
        d2.data = d.data ∧ d2.byte_order = d.byte_order := by
  induction n with
  | zero =>
    intro d vs d2 h
    simp only [read_short_loop, Option.some.injEq, Prod.mk.injEq] at h
    rcases h with ⟨h1, h2⟩
    subst h1; subst h2
    simp
  | succ n ih =>
    intro d vs d2 h
    rcases hr : d.read_short with _ | ⟨v, d1⟩
    · simp only [read_short_loop, hr] at h
      exact Option.noConfusion h
    · rcases hl : read_short_loop n d1 with _ | ⟨vs1, dd⟩
      · simp only [read_short_loop, hr, hl] at h
        exact Option.noConfusion h
      · simp only [read_short_loop, hr, hl, Option.some.injEq, Prod.mk.injEq] at h
        rcases h with ⟨h1, h2⟩
        subst h1; subst h2
        have hstep := read_short_state d v d1 hr
        have hrest := ih d1 vs1 dd hl
        refine ⟨⟨by simp [hrest.1.1], ?_⟩,
          by rw [hrest.2.1, hstep.1], by rw [hrest.2.2, hstep.2.1]⟩
        intro x hx
        rcases List.mem_cons.mp hx with rfl | hx
        · exact ⟨_, rfl⟩
        · exact hrest.1.2 x hx

/-- A successful `(LONG, n)` read loop yields `n` scalars and does not
change the stream content or byte order. -/
lemma read_long_loop_inv (n : Nat) :
    ∀ (d : TIFFDecoder) (vs : List Value) (d2 : TIFFDecoder),
      read_long_loop n d = some (vs, d2) →
      (vs.length = n ∧ ∀ x ∈ vs, ∃ u, x = Value.Unsigned u) ∧
        d2.data = d.data ∧ d2.byte_order = d.byte_order := by
  induction n with
  | zero =>
    intro d vs d2 h
    simp only [read_long_loop, Option.some.injEq, Prod.mk.injEq] at h
    rcases h with ⟨h1, h2⟩
    subst h1; subst h2
    simp
  | succ n ih =>
    intro d vs d2 h
    rcases hr : d.read_long with _ | ⟨v, d1⟩
    · simp only [read_long_loop, hr] at h
      exact Option.noConfusion h
    · rcases hl : read_long_loop n d1 with _ | ⟨vs1, dd⟩
      · simp only [read_long_loop, hr, hl] at h
        exact Option.noConfusion h
      · simp only [read_long_loop, hr, hl, Option.some.injEq, Prod.mk.injEq] at h
        rcases h with ⟨h1, h2⟩
        subst h1; subst h2
        have hstep := read_long_state d v d1 hr
        have hrest := ih d1 vs1 dd hl
        refine ⟨⟨by simp [hrest.1.1], ?_⟩,
          by rw [hrest.2.1, hstep.1], by rw [hrest.2.2, hstep.2.1]⟩
        intro x hx
        rcases List.mem_cons.mp hx with rfl | hx
        · exact ⟨_, rfl⟩
        · exact hrest.1.2 x hx

/-- Inversion of the offset-backed `(SHORT, n)` arm: a successful result
comes from a successful read loop at the sought state. -/
lemma short_offset_ok_inv (n : Nat) (d1 : TIFFDecoder) (v : Value) (d' : TIFFDecoder)
    (h : (match read_short_loop n d1 with
          | some (vv, d2) => Except.ok (Value.List vv, d2)
          | none => (Except.error ImageError.IoError :
              Except ImageError (Value × TIFFDecoder))) = Except.ok (v, d')) :
    ∃ vs, read_short_loop n d1 = some (vs, d') ∧ v = Value.List vs := by
  rcases hl : read_short_loop n d1 with _ | ⟨vs, d2⟩ <;> rw [hl] at h
  · exact Except.noConfusion h
  · simp only [Except.ok.injEq, Prod.mk.injEq] at h
    rcases h with ⟨hv, hd⟩
    subst hd
    exact ⟨vs, rfl, hv.symm⟩

/-- Inversion of the offset-backed `(LONG, n)` arm: a successful result
comes from a successful read loop at the sought state. -/
lemma long_offset_ok_inv (n : Nat) (d1 : TIFFDecoder) (v : Value) (d' : TIFFDecoder)
    (h : (match read_long_loop n d1 with
          | some (vv, d2) => Except.ok (Value.List vv, d2)
          | none => (Except.error ImageError.IoError :
              Except ImageError (Value × TIFFDecoder))) = Except.ok (v, d')) :
    ∃ vs, read_long_loop n d1 = some (vs, d') ∧ v = Value.List vs := by
  rcases hl : read_long_loop n d1 with _ | ⟨vs, d2⟩ <;> rw [hl] at h
  · exact Except.noConfusion h
  · simp only [Except.ok.injEq, Prod.mk.injEq] at h
    rcases h with ⟨hv, hd⟩
    subst hd
    exact ⟨vs, rfl, hv.symm⟩

/-- Inversion of a successful resolution: the decoder keeps its stream
content and byte order, and the value is either a scalar or a flat list
of exactly `count` scalars. -/
lemma val_ok_inv (e : Entry) (d : TIFFDecoder) (v : Value) (d' : TIFFDecoder)
    (h : e.val d = Except.ok (v, d')) :
    d'.data = d.data ∧ d'.byte_order = d.byte_order ∧
      ((∃ u, v = Value.Unsigned u) ∨
        (∃ l, v = Value.List l ∧ l.length = e.count ∧
          ∀ x ∈ l, ∃ u, x = Value.Unsigned u)) := by
  obtain ⟨t, c, b0, b1, b2, b3⟩ := e
  obtain ⟨data, p, bo⟩ := d
  cases t
  case BYTE =>
    rcases c with _ | _ | c
    · exact Except.noConfusion h
    · replace h : (Except.ok (Value.Unsigned b0,
          (⟨data, p, bo⟩ : TIFFDecoder)) :
            Except ImageError (Value × TIFFDecoder)) = Except.ok (v, d') := h
      simp only [Except.ok.injEq, Prod.mk.injEq] at h
      rcases h with ⟨hv, hd⟩
      subst hd
      exact ⟨rfl, rfl, Or.inl ⟨b0, hv.symm⟩⟩
    · exact Except.noConfusion h
  case SHORT =>
    rcases c with _ | _ | _ | c
    · obtain ⟨vs, hl, rfl⟩ := short_offset_ok_inv 0
        ⟨data, u32val bo b0 b1 b2 b3, bo⟩ v d' h
      have hinv := read_short_loop_inv 0 _ _ _ hl
      exact ⟨hinv.2.1, hinv.2.2, Or.inr ⟨vs, rfl, hinv.1.1, hinv.1.2⟩⟩
    · replace h : (Except.ok (Value.Unsigned (u16val bo b0 b1),
          (⟨data, p, bo⟩ : TIFFDecoder)) :
            Except ImageError (Value × TIFFDecoder)) = Except.ok (v, d') := h
      simp only [Except.ok.injEq, Prod.mk.injEq] at h
      rcases h with ⟨hv, hd⟩
      subst hd
      exact ⟨rfl, rfl, Or.inl ⟨_, hv.symm⟩⟩
    · replace h : (Except.ok (Value.List [Value.Unsigned (u16val bo b0 b1),
          Value.Unsigned (u16val bo b2 b3)], (⟨data, p, bo⟩ : TIFFDecoder)) :
            Except ImageError (Value × TIFFDecoder)) = Except.ok (v, d') := h
      simp only [Except.ok.injEq, Prod.mk.injEq] at h
      rcases h with ⟨hv, hd⟩
      subst hd
      refine ⟨rfl, rfl, Or.inr ⟨_, hv.symm, rfl, ?_⟩⟩
      intro x hx
      rcases List.mem_cons.mp hx with rfl | hx
      · exact ⟨_, rfl⟩
      · rcases List.mem_cons.mp hx with rfl | hx
        · exact ⟨_, rfl⟩
        · cases hx
    · obtain ⟨vs, hl, rfl⟩ := short_offset_ok_inv (c + 3)
        ⟨data, u32val bo b0 b1 b2 b3, bo⟩ v d' h
      have hinv := read_short_loop_inv (c + 3) _ _ _ hl
      exact ⟨hinv.2.1, hinv.2.2, Or.inr ⟨vs, rfl, hinv.1.1, hinv.1.2⟩⟩
  case LONG =>
    rcases c with _ | _ | c
    · obtain ⟨vs, hl, rfl⟩ := long_offset_ok_inv 0
        ⟨data, u32val bo b0 b1 b2 b3, bo⟩ v d' h
      have hinv := read_long_loop_inv 0 _ _ _ hl
      exact ⟨hinv.2.1, hinv.2.2, Or.inr ⟨vs, rfl, hinv.1.1, hinv.1.2⟩⟩
    · replace h : (Except.ok (Value.Unsigned (u32val bo b0 b1 b2 b3),
          (⟨data, p, bo⟩ : TIFFDecoder)) :
            Except ImageError (Value × TIFFDecoder)) = Except.ok (v, d') := h
      simp only [Except.ok.injEq, Prod.mk.injEq] at h
      rcases h with ⟨hv, hd⟩
      subst hd
      exact ⟨rfl, rfl, Or.inl ⟨_, hv.symm⟩⟩
    · obtain ⟨vs, hl, rfl⟩ := long_offset_ok_inv (c + 2)
        ⟨data, u32val bo b0 b1 b2 b3, bo⟩ v d' h
      have hinv := read_long_loop_inv (c + 2) _ _ _ hl
      exact ⟨hinv.2.1, hinv.2.2, Or.inr ⟨vs, rfl, hinv.1.1, hinv.1.2⟩⟩
  all_goals exact Except.noConfusion h

/-- Resolution reads the stream only through absolute seeks: the value
component of the result does not depend on the initial cursor position
(only on the stream content and byte order). -/
lemma val_fst_congr (e : Entry) (d1 d2 : TIFFDecoder)
    (hdata : d1.data = d2.data) (hbo : d1.byte_order = d2.byte_order) :
    Except.map Prod.fst (e.val d1) = Except.map Prod.fst (e.val d2) := by
  obtain ⟨t, c, b0, b1, b2, b3⟩ := e
  obtain ⟨data1, p1, bo1⟩ := d1
  obtain ⟨data2, p2, bo2⟩ := d2
  obtain rfl : data1 = data2 := hdata
  obtain rfl : bo1 = bo2 := hbo
  cases t <;> rcases c with _ | _ | _ | c <;> rfl

/-- Element-wise `as_u32` over a list of scalars succeeds. -/
lemma mapM_as_u32_ok (l : List Value)
    (hall : ∀ x ∈ l, ∃ u, x = Value.Unsigned u) :
    ∃ r, l.mapM Value.as_u32 = Except.ok r := by
  induction l with
  | nil => exact ⟨[], rfl⟩
  | cons x xs ih =>
    obtain ⟨u, rfl⟩ := hall x (by simp)
    obtain ⟨r, hr⟩ := ih (fun y hy => hall y (by simp [hy]))
    exact ⟨u :: r, by rw [List.mapM_cons, hr]; rfl⟩

/-- Element-wise `as_u32` succeeds only over a list of scalars. -/
lemma mapM_as_u32_inv (l : List Value) (r : List Nat)
    (h : l.mapM Value.as_u32 = Except.ok r) :
    ∀ x ∈ l, ∃ u, x = Value.Unsigned u := by
  induction l generalizing r with
  | nil => intro x hx; cases hx
  | cons x xs ih =>
    rw [List.mapM_cons] at h
    cases x with
    | Unsigned u =>
      rcases hm : xs.mapM Value.as_u32 with err | rr
      · rw [hm] at h
        exact Except.noConfusion h
      · rw [hm] at h
        intro y hy
        rcases List.mem_cons.mp hy with rfl | hy
        · exact ⟨u, rfl⟩
        · exact ih rr hm y hy
    | List l2 => exact Except.noConfusion h

/-! ## Claim theorems -/

/-- C1: for a SHORT entry whose count `n` is not in {1, 2} (any `n`,
including 0), resolution decodes the 4-byte slot as an unsigned 32-bit
offset in the file's byte order, seeks the external decoder to that
absolute offset, reads `n` sequential unsigned 16-bit values through the
decoder (each promoted to 32-bit), returns a sequence of exactly `n`
scalars, and leaves the stream cursor immediately past the `n`-th value
(at `offset + 2 * n`). -/
theorem claim_C1_short_offset_resolution (e : Entry) (d : TIFFDecoder) (n : Nat)
    (ht : e.type_ = Type_.SHORT) (hc : e.count = n) (h1 : n ≠ 1) (h2 : n ≠ 2)
    (havail : e.slotU32 d.byte_order + 2 * n ≤ d.data.length) :
    e.val d =
      Except.ok
        (Value.List (specShortSeq d.byte_order d.data (e.slotU32 d.byte_order) n),
          { d with pos := e.slotU32 d.byte_order + 2 * n }) ∧
      (specShortSeq d.byte_order d.data (e.slotU32 d.byte_order) n).length = n := by
  obtain ⟨t, c, b0, b1, b2, b3⟩ := e
  obtain ⟨data, p, bo⟩ := d
  obtain rfl : t = Type_.SHORT := ht
  obtain rfl : c = n := hc
  refine ⟨?_, specShortSeq_length _ _ _ _⟩
  rcases c with _ | _ | _ | k
  · have hred : Entry.val ⟨Type_.SHORT, 0, ⟨b0, b1, b2, b3⟩⟩ ⟨data, p, bo⟩ =
        (match read_short_loop 0
            (⟨data, u32val bo b0 b1 b2 b3, bo⟩ : TIFFDecoder) with
          | some (vv, d2) => Except.ok (Value.List vv, d2)
          | none => Except.error ImageError.IoError) := rfl
    rw [hred, read_short_loop_eq 0 _ (by exact havail)]
    rfl
  · exact absurd rfl h1
  · exact absurd rfl h2
  · have hred : Entry.val ⟨Type_.SHORT, k + 3, ⟨b0, b1, b2, b3⟩⟩ ⟨data, p, bo⟩ =
        (match read_short_loop (k + 3)
            (⟨data, u32val bo b0 b1 b2 b3, bo⟩ : TIFFDecoder) with
          | some (vv, d2) => Except.ok (Value.List vv, d2)
          | none => Except.error ImageError.IoError) := rfl
    rw [hred, read_short_loop_eq (k + 3) _ (by exact havail)]
    rfl

/-- Witness for C1: a `(SHORT, 3)` entry whose big-endian slot encodes
offset 1 resolves to the three 16-bit values 1, 2, 3 stored there and
leaves the cursor at 7. -/
theorem claim_C1_witness :
    (Entry.new Type_.SHORT 3 ⟨0, 0, 0, 1⟩).val
        ⟨[9, 0, 1, 0, 2, 0, 3], 0, ByteOrder.BigEndian⟩ =
      Except.ok
        (Value.List (specShortSeq ByteOrder.BigEndian [9, 0, 1, 0, 2, 0, 3] 1 3),
          ⟨[9, 0, 1, 0, 2, 0, 3], 7, ByteOrder.BigEndian⟩) ∧
    (specShortSeq ByteOrder.BigEndian [9, 0, 1, 0, 2, 0, 3] 1 3).length = 3 :=
  claim_C1_short_offset_resolution _ _ 3 rfl rfl (by decide) (by decide) (by decide)

/-- C2: resolution of a LONG entry is inline exactly when count = 1 —
the full 4-byte slot decoded as one unsigned 32-bit integer in file byte
order, returned as a scalar with the stream untouched — while for every
count `n ≠ 1` (including 0) the slot is decoded as a 32-bit offset in
file byte order, the decoder seeks there and reads `n` sequential
unsigned 32-bit values, yielding a sequence of exactly `n` scalars. -/
theorem claim_C2_long_resolution :
    (∀ (e : Entry) (d : TIFFDecoder), e.type_ = Type_.LONG → e.count = 1 →
      e.val d = Except.ok (Value.Unsigned (e.slotU32 d.byte_order), d)) ∧
    (∀ (e : Entry) (d : TIFFDecoder) (n : Nat), e.type_ = Type_.LONG →
      e.count = n → n ≠ 1 →
      e.slotU32 d.byte_order + 4 * n ≤ d.data.length →
      e.val d =
        Except.ok
          (Value.List (specLongSeq d.byte_order d.data (e.slotU32 d.byte_order) n),
            { d with pos := e.slotU32 d.byte_order + 4 * n }) ∧
        (specLongSeq d.byte_order d.data (e.slotU32 d.byte_order) n).length = n) := by
  constructor
  · intro e d ht hc
    obtain ⟨t, c, b0, b1, b2, b3⟩ := e
    obtain ⟨data, p, bo⟩ := d
    obtain rfl : t = Type_.LONG := ht
    obtain rfl : c = 1 := hc
    rfl
  · intro e d n ht hc h1 havail
    obtain ⟨t, c, b0, b1, b2, b3⟩ := e
    obtain ⟨data, p, bo⟩ := d
    obtain rfl : t = Type_.LONG := ht
    obtain rfl : c = n := hc
    refine ⟨?_, specLongSeq_length _ _ _ _⟩
    rcases c with _ | _ | k
    · have hred : Entry.val ⟨Type_.LONG, 0, ⟨b0, b1, b2, b3⟩⟩ ⟨data, p, bo⟩ =
          (match read_long_loop 0
              (⟨data, u32val bo b0 b1 b2 b3, bo⟩ : TIFFDecoder) with
            | some (vv, d2) => Except.ok (Value.List vv, d2)
            | none => Except.error ImageError.IoError) := rfl
      rw [hred, read_long_loop_eq 0 _ (by exact havail)]
      rfl
    · exact absurd rfl h1
    · have hred : Entry.val ⟨Type_.LONG, k + 2, ⟨b0, b1, b2, b3⟩⟩ ⟨data, p, bo⟩ =
          (match read_long_loop (k + 2)
              (⟨data, u32val bo b0 b1 b2 b3, bo⟩ : TIFFDecoder) with
            | some (vv, d2) => Except.ok (Value.List vv, d2)
            | none => Except.error ImageError.IoError) := rfl
      rw [hred, read_long_loop_eq (k + 2) _ (by exact havail)]
      rfl

/-- Witness for C2: a `(LONG, 1)` big-endian slot `[0,0,0,5]` yields
scalar 5 inline; a `(LONG, 2)` entry whose slot encodes offset 0 reads
the two 32-bit values 1 and 2 at the start of the stream. -/
theorem claim_C2_witness :
    (Entry.new Type_.LONG 1 ⟨0, 0, 0, 5⟩).val ⟨[], 0, ByteOrder.BigEndian⟩ =
      Except.ok (Value.Unsigned 5, ⟨[], 0, ByteOrder.BigEndian⟩) ∧
    (Entry.new Type_.LONG 2 ⟨0, 0, 0, 0⟩).val
        ⟨[0, 0, 0, 1, 0, 0, 0, 2], 3, ByteOrder.BigEndian⟩ =
      Except.ok
        (Value.List (specLongSeq ByteOrder.BigEndian [0, 0, 0, 1, 0, 0, 0, 2] 0 2),
          ⟨[0, 0, 0, 1, 0, 0, 0, 2], 8, ByteOrder.BigEndian⟩) ∧
    (specLongSeq ByteOrder.BigEndian [0, 0, 0, 1, 0, 0, 0, 2] 0 2).length = 2 :=
  ⟨claim_C2_long_resolution.1 _ _ rfl rfl,
    claim_C2_long_resolution.2 _ _ 2 rfl rfl (by decide) (by decide)⟩

/-- C3: for a SHORT entry with count 1, resolution decodes the first two
slot bytes as an unsigned 16-bit integer in the file's byte order,
promotes it to 32 bits, ignores the remaining two slot bytes (the result
does not mention them), and returns a scalar with the stream untouched. -/
theorem claim_C3_short1_inline (e : Entry) (d : TIFFDecoder)
    (ht : e.type_ = Type_.SHORT) (hc : e.count = 1) :
    e.val d =
      Except.ok (Value.Unsigned (u16val d.byte_order e.offset.b0 e.offset.b1), d) := by
  obtain ⟨t, c, b0, b1, b2, b3⟩ := e
  obtain ⟨data, p, bo⟩ := d
  obtain rfl : t = Type_.SHORT := ht
  obtain rfl : c = 1 := hc
  rfl

/-- Witness for C3: slot `[0x00, 0x01, _, _]` yields scalar 1 under
big-endian order and scalar 256 under little-endian order. -/
theorem claim_C3_witness :
    (Entry.new Type_.SHORT 1 ⟨0, 1, 7, 9⟩).val ⟨[], 0, ByteOrder.BigEndian⟩ =
      Except.ok (Value.Unsigned 1, ⟨[], 0, ByteOrder.BigEndian⟩) ∧
    (Entry.new Type_.SHORT 1 ⟨0, 1, 7, 9⟩).val ⟨[], 0, ByteOrder.LittleEndian⟩ =
      Except.ok (Value.Unsigned 256, ⟨[], 0, ByteOrder.LittleEndian⟩) :=
  ⟨claim_C3_short1_inline _ _ rfl rfl, claim_C3_short1_inline _ _ rfl rfl⟩

/-- C4: for an entry whose `(type, count)` pair has no resolution rule —
ASCII, RATIONAL, any signed variant, FLOAT, DOUBLE or UNDEFINED with any
count, or BYTE with any count other than 1 — resolution fails with the
"unsupported data type" error and produces no partial value. -/
theorem claim_C4_unsupported_error (e : Entry) (d : TIFFDecoder)
    (h : e.type_ ∈ [Type_.ASCII, Type_.RATIONAL, Type_.SBYTE, Type_.UNDEFINED,
        Type_.SSHORT, Type_.SLONG, Type_.SRATIONAL, Type_.FLOAT, Type_.DOUBLE] ∨
      (e.type_ = Type_.BYTE ∧ e.count ≠ 1)) :
    e.val d = Except.error (ImageError.UnsupportedError "Unsupported data type.") := by
  obtain ⟨t, c, b0, b1, b2, b3⟩ := e
  obtain ⟨data, p, bo⟩ := d
  rcases h with h | ⟨rfl, hc⟩
  · fin_cases h <;> rfl
  · rcases c with _ | _ | c
    · rfl
    · exact absurd rfl hc
    · rfl

/-- Witness for C4: a `(RATIONAL, 1)` entry fails with the
unsupported-type error. -/
theorem claim_C4_witness :
    (Entry.new Type_.RATIONAL 1 ⟨0, 0, 0, 0⟩).val ⟨[], 0, ByteOrder.BigEndian⟩ =
      Except.error (ImageError.UnsupportedError "Unsupported data type.") :=
  claim_C4_unsupported_error _ _ (Or.inl (by decide))

/-- C5: for a BYTE entry with count 1 and either byte order, resolution
returns a scalar equal to the first raw slot byte, with no endian
conversion (the result mentions only `b0`) and the stream untouched. -/
theorem claim_C5_byte1_raw (e : Entry) (d : TIFFDecoder)
    (ht : e.type_ = Type_.BYTE) (hc : e.count = 1) :
    e.val d = Except.ok (Value.Unsigned e.offset.b0, d) := by
  obtain ⟨t, c, b0, b1, b2, b3⟩ := e
  obtain ⟨data, p, bo⟩ := d
  obtain rfl : t = Type_.BYTE := ht
  obtain rfl : c = 1 := hc
  rfl

/-- Witness for C5: slot `[0x2A, _, _, _]` yields scalar 42 under both
byte orders. -/
theorem claim_C5_witness :
    (Entry.new Type_.BYTE 1 ⟨42, 1, 2, 3⟩).val ⟨[], 0, ByteOrder.BigEndian⟩ =
      Except.ok (Value.Unsigned 42, ⟨[], 0, ByteOrder.BigEndian⟩) ∧
    (Entry.new Type_.BYTE 1 ⟨42, 1, 2, 3⟩).val ⟨[], 0, ByteOrder.LittleEndian⟩ =
      Except.ok (Value.Unsigned 42, ⟨[], 0, ByteOrder.LittleEndian⟩) :=
  ⟨claim_C5_byte1_raw _ _ rfl rfl, claim_C5_byte1_raw _ _ rfl rfl⟩

/-- C6: tag lookup is a total function with no error path — every code
in the fixed catalog maps to its named variant (in particular 256 to
`ImageWidth`, 259 to `Compression`, 33432 to `Copyright`), and every
code outside the catalog maps to `Unknown` carrying exactly that code. -/
theorem claim_C6_tag_lookup_total :
    (∀ p ∈ tags_list, Tag.from_u16 p.1 = p.2) ∧
    (∀ n : Nat, (∀ p ∈ tags_list, p.1 ≠ n) → Tag.from_u16 n = Tag.Unknown n) ∧
    Tag.from_u16 256 = Tag.ImageWidth ∧
    Tag.from_u16 259 = Tag.Compression ∧
    Tag.from_u16 33432 = Tag.Copyright := by
  refine ⟨?_, ?_, rfl, rfl, rfl⟩
  · intro p hp
    fin_cases hp <;> rfl
  · intro n h
    unfold Tag.from_u16
    rw [List.find?_eq_none.mpr (fun p hp => by simpa using h p hp)]

/-- Witness for C6: code 999 is outside the catalog and maps to
`Unknown 999`. -/
theorem claim_C6_witness : Tag.from_u16 999 = Tag.Unknown 999 :=
  claim_C6_tag_lookup_total.2.1 999 (by decide)

/-- C7: the scalar accessor succeeds exactly on the single-unsigned
shape (returning the wrapped integer) and fails with a type-mismatch
error on a sequence; the sequence accessor turns a lone scalar into a
one-element sequence and succeeds on a sequence exactly when every
element is itself a scalar. -/
theorem claim_C7_value_accessors :
    (∀ u : Nat, (Value.Unsigned u).as_u32 = Except.ok u) ∧
    (∀ l : List Value, (Value.List l).as_u32 =
      Except.error (ImageError.FormatError (Value.List l))) ∧
    (∀ u : Nat, (Value.Unsigned u).as_u32_vec = Except.ok [u]) ∧
    (∀ l : List Value,
      (∃ r, (Value.List l).as_u32_vec = Except.ok r) ↔
        ∀ x ∈ l, ∃ u, x = Value.Unsigned u) := by
  refine ⟨fun u => rfl, fun l => rfl, fun u => rfl, fun l => ⟨?_, ?_⟩⟩
  · rintro ⟨r, hr⟩
    exact mapM_as_u32_inv l r hr
  · intro hall
    obtain ⟨r, hr⟩ := mapM_as_u32_ok l hall
    exact ⟨r, hr⟩

/-- Witness for C7: the scalar accessor on `Unsigned 5` and the sequence
accessor on a two-scalar list both succeed. -/
theorem claim_C7_witness :
    (Value.Unsigned 5).as_u32 = Except.ok 5 ∧
    ∃ r, (Value.List [Value.Unsigned 1, Value.Unsigned 2]).as_u32_vec =
      Except.ok r :=
  ⟨claim_C7_value_accessors.1 5,
    (claim_C7_value_accessors.2.2.2 [Value.Unsigned 1, Value.Unsigned 2]).mpr
      (by
        intro x hx
        rcases List.mem_cons.mp hx with rfl | hx
        · exact ⟨1, rfl⟩
        · rcases List.mem_cons.mp hx with rfl | hx
          · exact ⟨2, rfl⟩
          · cases hx)⟩

/-- C8: resolution is deterministic under repetition — a second
resolution of the same entry against the stream state left by a first
successful resolution (undisturbed in between) yields the same value,
because offset-backed resolution seeks to the absolute offset taken from
the slot rather than reading at the current cursor. -/
theorem claim_C8_resolution_deterministic (e : Entry) (d : TIFFDecoder)
    (v : Value) (d1 : TIFFDecoder) (h : e.val d = Except.ok (v, d1)) :
    ∃ d2, e.val d1 = Except.ok (v, d2) := by
  obtain ⟨hdata, hbo, -⟩ := val_ok_inv e d v d1 h
  have hc := val_fst_congr e d1 d hdata hbo
  rw [h] at hc
  rcases hv : e.val d1 with err | ⟨v2, d2⟩
  · rw [hv] at hc
    exact Except.noConfusion hc
  · rw [hv] at hc
    replace hc : (Except.ok v2 : Except ImageError Value) = Except.ok v := hc
    exact ⟨d2, by rw [Except.ok.inj hc]⟩

/-- Witness for C8: a `(SHORT, 3)` entry resolved once from cursor 0
ends at cursor 6; resolving again from there yields the same value. -/
theorem claim_C8_witness :
    ∃ d2, (Entry.new Type_.SHORT 3 ⟨0, 0, 0, 0⟩).val
        ⟨[0, 1, 0, 2, 0, 3], 6, ByteOrder.BigEndian⟩ =
      Except.ok
        (Value.List [Value.Unsigned 1, Value.Unsigned 2, Value.Unsigned 3], d2) :=
  claim_C8_resolution_deterministic _
    ⟨[0, 1, 0, 2, 0, 3], 0, ByteOrder.BigEndian⟩ _ _ rfl

/-- C9: every successfully resolved value is flat and count-shaped — a
single unsigned scalar, or a one-level sequence of exactly `count`
unsigned scalars (never nested) — so the sequence accessor succeeds on
every value resolution produces. -/
theorem claim_C9_flat_count_shaped (e : Entry) (d : TIFFDecoder)
    (v : Value) (d1 : TIFFDecoder) (h : e.val d = Except.ok (v, d1)) :
    ((∃ u, v = Value.Unsigned u) ∨
      (∃ l, v = Value.List l ∧ l.length = e.count ∧
        ∀ x ∈ l, ∃ u, x = Value.Unsigned u)) ∧
    ∃ r, v.as_u32_vec = Except.ok r := by
  have hinv := val_ok_inv e d v d1 h
  refine ⟨hinv.2.2, ?_⟩
  rcases hinv.2.2 with ⟨u, rfl⟩ | ⟨l, rfl, hlen, hall⟩
  · exact ⟨[u], rfl⟩
  · exact mapM_as_u32_ok l hall

/-- Witness for C9: a resolved `(BYTE, 1)` value is the scalar 42 and
the sequence accessor succeeds on it. -/
theorem claim_C9_witness :
    ((∃ u, Value.Unsigned 42 = Value.Unsigned u) ∨
      (∃ l, Value.Unsigned 42 = Value.List l ∧
        l.length = (Entry.new Type_.BYTE 1 ⟨42, 0, 0, 0⟩).count ∧
        ∀ x ∈ l, ∃ u, x = Value.Unsigned u)) ∧
    ∃ r, (Value.Unsigned 42).as_u32_vec = Except.ok r :=
  claim_C9_flat_count_shaped (Entry.new Type_.BYTE 1 ⟨42, 0, 0, 0⟩)
    ⟨[], 0, ByteOrder.BigEndian⟩ (Value.Unsigned 42)
    ⟨[], 0, ByteOrder.BigEndian⟩ rfl

/-- C10: the four inline dispatch cases — `(BYTE, 1)`, `(SHORT, 1)`,
`(SHORT, 2)` and `(LONG, 1)` — never return an I/O failure: for every
slot content and both byte orders they return a successful value and
leave the decoder untouched (the inline-slot I/O error path is
unreachable, since the in-memory 4-byte buffer always holds enough
bytes). -/
theorem claim_C10_inline_no_io_failure (e : Entry) (d : TIFFDecoder)
    (h : (e.type_ = Type_.BYTE ∧ e.count = 1) ∨
      (e.type_ = Type_.SHORT ∧ e.count = 1) ∨
      (e.type_ = Type_.SHORT ∧ e.count = 2) ∨
      (e.type_ = Type_.LONG ∧ e.count = 1)) :
    ∃ v, e.val d = Except.ok (v, d) := by
  obtain ⟨t, c, b0, b1, b2, b3⟩ := e
  obtain ⟨data, p, bo⟩ := d
  rcases h with ⟨rfl, rfl⟩ | ⟨rfl, rfl⟩ | ⟨rfl, rfl⟩ | ⟨rfl, rfl⟩
  · exact ⟨_, rfl⟩
  · exact ⟨_, rfl⟩
  · exact ⟨_, rfl⟩
  · exact ⟨_, rfl⟩

/-- Witness for C10: a `(SHORT, 2)` entry resolves successfully with an
empty stream. -/
theorem claim_C10_witness :
    ∃ v, (Entry.new Type_.SHORT 2 ⟨0, 1, 0, 2⟩).val
        ⟨[], 0, ByteOrder.BigEndian⟩ =
      Except.ok (v, ⟨[], 0, ByteOrder.BigEndian⟩) :=
  claim_C10_inline_no_io_failure _ _ (Or.inr (Or.inr (Or.inl ⟨rfl, rfl⟩)))

end Tiff
